import Mathlib

/-!
Shallow embedding of the fitbod stress-test harness (`src/main.rs`), covering
the transport status handling (`api_request`), the worker job arms, the
sampling manager's write-job construction and dispatch, and the post-run
verification pass.  UUIDs are modelled as naturals, `HashSet<Uuid>` as
`Finset Nat`, and timestamps as integers.  Definitions come first, then the
theorems about them.
-/

namespace Fitbod

/- # Definitions -/

/-- Model of `fitbod::Workout`: `{user_id, workout_id, start_time, end_time}`,
with UUIDs as naturals and timestamps as integers. -/
structure Workout where
  user_id : Nat
  workout_id : Nat
  start_time : Int
  end_time : Int
deriving DecidableEq, Repr

/-- Dummy workout used as the `getD` default when indexing lists of workouts. -/
def dummyWorkout : Workout := ⟨0, 0, 0, 0⟩

/-- Rust's `HashSet::symmetric_difference(..).count()`: the number of elements
in exactly one of the two sets. -/
def symmetric_difference_count (s t : Finset Nat) : Nat :=
  ((s \ t) ∪ (t \ s)).card

/-- The workout-id set collected from a list response's items:
`resp.items.iter().map(|x| x.workout_id).collect::<HashSet<Uuid>>()`. -/
def resp_wids (items : List Workout) : Finset Nat :=
  (items.map (fun w => w.workout_id)).toFinset

/-- Result of `api_request` once a structurally complete response has been
parsed (`main.rs` lines 547-566): `body = none` means the function reported
failure (returned `None`); `logged` holds the request and response text that
were printed to stderr on failure. -/
structure CompleteResp where
  body : Option (List Nat)
  logged : Option (String × String)
deriving DecidableEq, Repr

/-- Translation of the complete-response arm of `api_request`:
`if !(resp.status == 200 || resp.status == 204) { eprintln!(request, response); return None }`
`else { return Some(body bytes) }`.  The status check is the same for every
endpoint `path`. -/
def api_request_on_complete (path http_req_str resp_text : String) (status : Nat)
    (body : List Nat) : CompleteResp :=
  let _ := path
  if ¬ (status = 200 ∨ status = 204) then
    { body := none, logged := some (http_req_str, resp_text) }
  else
    { body := some body, logged := none }

/-- Written from the spec's words, for comparison with
`api_request_on_complete`: a per-endpoint accepted-status set — 200 for the
list endpoint, 204 for the new-workouts endpoint. -/
def accepted_for_endpoint (path : String) (status : Nat) : Bool :=
  if path = "/api/v1/workouts/list" then status == 200
  else if path = "/api/v1/workouts/new" then status == 204
  else false

/-- The per-entry remap in the write-job payload: the template entry at index
`i` is cloned with `user_id` set to the real user and `workout_id` set to the
pre-generated id `workout_ids[i]`. -/
def remap_entry (uid : Nat) (workout_ids : List Nat) (iw : Nat × Workout) : Workout :=
  { iw.2 with user_id := uid, workout_id := workout_ids.getD iw.1 0 }

/-- The payload of a write job built at position `pos`:
`state.workouts.iter().enumerate().skip(pos.saturating_sub(10)).take(15).map(remap)`.
Natural subtraction models `saturating_sub`. -/
def write_payload (uid : Nat) (template : List Workout) (workout_ids : List Nat)
    (pos : Nat) : List Workout :=
  (((template.enum).drop (pos - 10)).take 15).map (remap_entry uid workout_ids)

/-- `n_new`: how many payload ids are not yet in the (read-locked) `inserted`
set: `workouts.iter().filter(|x| !read_lock.contains(&x.workout_id)).count()`. -/
def count_new (inserted : Finset Nat) (payload : List Workout) : Nat :=
  (payload.filter (fun w => decide (w.workout_id ∉ inserted))).length

/-- Result of building one write job: the payload, the manager's advanced
`pos`, and the amount added to `n_pending_inserts`. -/
structure BuildResult where
  payload : List Workout
  newPos : Nat
  pendingDelta : Nat
deriving DecidableEq, Repr

/-- Translation of the write-job construction in the manager loop
(`main.rs` lines 713-736): build the remapped window payload, count the
genuinely new ids against the read-locked `inserted` set, advance `pos` and
the pending-insert counter by that count. -/
def build_write_job (uid : Nat) (template : List Workout) (workout_ids : List Nat)
    (inserted : Finset Nat) (pos : Nat) : BuildResult :=
  let payload := write_payload uid template workout_ids pos
  let n_new := count_new inserted payload
  { payload := payload, newPos := pos + n_new, pendingDelta := n_new }

/-- Observable actions of one worker job, in program order: taking and
dropping the exclusive lock on the user's `inserted` set, sending a request,
and completing the symmetric-difference comparison. -/
inductive WorkerEvent where
  | acquireLock
  | sendList (uid : Nat)
  | sendNew (uid : Nat)
  | compareDone
  | releaseLock
deriving DecidableEq, Repr

/-- Outcome of a Read job: `ok`, or the fatal `assert_eq!` panic carrying the
diagnostic dump (user id, response id set, locked local set). -/
inductive ReadOutcome where
  | ok
  | fatal (uid : Nat) (resp_ids : Finset Nat) (local_ids : Finset Nat)
deriving DecidableEq

/-- Translation of the non-read-only Read arm (lines 655-665): take the write
lock, send the list request, collect the returned workout ids, and assert the
symmetric difference with the locked local set is empty; on mismatch the
process dies with both sets and the user id, and the lock is dropped only
after the comparison (never, on the fatal path). -/
def handle_read_checked (uid : Nat) (inserted : Finset Nat)
    (resp_items : List Workout) : List WorkerEvent × ReadOutcome :=
  let wids := resp_wids resp_items
  if symmetric_difference_count inserted wids = 0 then
    ([.acquireLock, .sendList uid, .compareDone, .releaseLock], .ok)
  else
    ([.acquireLock, .sendList uid, .compareDone], .fatal uid wids inserted)

/-- Translation of the read-only Read arm (lines 667-670): send the list
request and discard the result; no locking, no validation. -/
def handle_read_read_only (uid : Nat) (resp_items : List Workout) :
    List WorkerEvent × ReadOutcome :=
  let _ := resp_items
  ([.sendList uid], .ok)

/-- Model of `UserState` (lines 263-272): the signing key is abstracted to a
natural. -/
structure UserState where
  user_id : Nat
  key : Nat
  workouts : List Workout
  workout_ids : List Nat
  inserted : Finset Nat
  pos : Nat
deriving DecidableEq

/-- One user's check in the final pass (lines 802-813): send a list request,
collect the returned ids, and report the user id when the symmetric
difference with the locked `inserted` set is non-empty. -/
def verify_user (server : Nat → List Workout) (s : UserState) : Option Nat :=
  if 0 < symmetric_difference_count s.inserted (resp_wids (server s.user_id)) then
    some s.user_id
  else none

/-- Result of the final verification pass: the users a list request was sent
for (in order), the recorded failures, and whether the process panics. -/
structure FinalReport where
  requests : List Nat
  failed_verifications : List Nat
  abnormal : Bool
deriving DecidableEq

/-- Translation of the final verification pass (lines 794-821): check every
user whose `pos` advanced past zero, collect the failed user ids, and panic
exactly when that list is non-empty. -/
def final_verification_pass (states : List UserState)
    (server : Nat → List Workout) : FinalReport :=
  let checked := states.filter (fun s => decide (0 < s.pos))
  { requests := checked.map (fun s => s.user_id)
  , failed_verifications := checked.filterMap (verify_user server)
  , abnormal := ! (checked.filterMap (verify_user server)).isEmpty }

/-- The guard around the final pass: `if ! read_only { ... }`. -/
def stress_test_final (read_only : Bool) (states : List UserState)
    (server : Nat → List Workout) : Option FinalReport :=
  if read_only then none else some (final_verification_pass states server)

/-- Rust's `HashSet::extend` over the submitted workout ids. -/
def insert_all (ids : List Nat) (s : Finset Nat) : Finset Nat :=
  ids.foldl (fun acc i => insert i acc) s

/-- Result of one Write job: the events in program order, the updated
`inserted` set, and the amount added to the shared `n_inserted` counter. -/
structure WriteResult where
  events : List WorkerEvent
  inserted : Finset Nat
  counter_delta : Nat
deriving DecidableEq

/-- Translation of the worker Write arm (lines 672-685): take the write lock,
send the new-workouts request, extend the locked set with all submitted
workout ids, drop the lock, and add `n_after - n_before` to the shared
confirmed-insert counter. -/
def handle_write (uid : Nat) (payload : List Workout)
    (inserted : Finset Nat) : WriteResult :=
  let n_before := inserted.card
  let inserted2 := insert_all (payload.map (fun w => w.workout_id)) inserted
  let n_after := inserted2.card
  { events := [.acquireLock, .sendNew uid, .releaseLock]
  , inserted := inserted2
  , counter_delta := n_after - n_before }

/-- The write-eligibility test (line 711):
`!read_only && state.pos < state.workouts.len() && uniform.sample(&mut rng) > 0.80`;
the uniform draw's comparison against 0.80 is abstracted to `draw_gt_80`. -/
def is_write (read_only : Bool) (pos len : Nat) (draw_gt_80 : Bool) : Bool :=
  !read_only && decide (pos < len) && draw_gt_80

/-- The jobs of the worker channels (`StressTestJob`, lines 274-289), with the
key and the lock handle abstracted away. -/
inductive StressTestJob where
  | read (user_id : Nat)
  | write (user_id : Nat) (workouts : List Workout)
  | exit
deriving DecidableEq

/-- Translation of the manager's per-sampled-user job construction
(lines 710-747): a Write carrying the constructed payload when `is_write`
holds, otherwise a Read. -/
def mgr_job (read_only draw_gt_80 : Bool) (s : UserState) : StressTestJob :=
  if is_write read_only s.pos s.workouts.length draw_gt_80 then
    .write s.user_id
      (build_write_job s.user_id s.workouts s.workout_ids s.inserted s.pos).payload
  else
    .read s.user_id

/-- What one `rx.recv()` call yields: a job, or a receive error (raised only
once every sender has been dropped). -/
inductive RecvResult where
  | ok (job : StressTestJob)
  | recvErr
deriving DecidableEq

/-- The arms of the worker's `match rx.recv()` (lines 652-688). -/
inductive ArmTaken where
  | exitArm
  | readCheckedArm
  | readReadOnlyArm
  | writeArm
  | todoArm
deriving DecidableEq, Repr

/-- Which arm of the worker's `match` fires for one received value: the two
Read arms are guarded by `! read_only` / `read_only`, Write is unguarded, and
the `_ => todo!()` catch-all receives everything else — receive errors. -/
def dispatch_arm (read_only : Bool) : RecvResult → ArmTaken
  | .ok .exit => .exitArm
  | .ok (.read _) => if read_only then .readReadOnlyArm else .readCheckedArm
  | .ok (.write _ _) => .writeArm
  | .recvErr => .todoArm

/-- The worker receive loop (lines 651-690): process the received values in
order, stopping at the Exit arm; yields the arms taken, in order. -/
def worker_arms (read_only : Bool) : List RecvResult → List ArmTaken
  | [] => []
  | m :: rest =>
    match dispatch_arm read_only m with
    | .exitArm => [.exitArm]
    | a => a :: worker_arms read_only rest

/-- Manager-side plus worker-side state for one user in a
`batch_size = 1, n_threads = 1` run: the manager's `pos`, the shared
`inserted` set, and the write payloads sitting in the worker queue, built but
not yet executed. -/
structure SimState where
  pos : Nat
  inserted : Finset Nat
  pending : List (List Workout)
deriving DecidableEq

/-- One event of a single-user run: the manager samples the user and the
write draw succeeds (a write job is built when eligible, else the batch is a
read), the draw fails (read batch), or the worker executes the oldest queued
write job. -/
inductive SimEvent where
  | writeBatch
  | readBatch
  | execJob
deriving DecidableEq, Repr

/-- One step of the single-user simulation.  A write batch builds a job with
`build_write_job` and advances `pos` (lines 713-736); a read batch leaves the
user state unchanged; executing a queued job extends `inserted` with the
payload ids exactly as the worker Write arm does (lines 672-685). -/
def sim_step (template : List Workout) (workout_ids : List Nat) (uid : Nat) :
    SimEvent → SimState → SimState
  | .writeBatch, st =>
    if st.pos < template.length then
      { st with
        pos := (build_write_job uid template workout_ids st.inserted st.pos).newPos
      , pending := st.pending
          ++ [(build_write_job uid template workout_ids st.inserted st.pos).payload] }
    else st
  | .readBatch, st => st
  | .execJob, st =>
    match st.pending with
    | [] => st
    | p :: rest =>
      { st with inserted := (handle_write uid p st.inserted).inserted
              , pending := rest }

/-- A single-user run from the initial state (`pos = 0`, nothing inserted,
empty queue). -/
def sim_run (template : List Workout) (workout_ids : List Nat) (uid : Nat)
    (events : List SimEvent) : SimState :=
  events.foldl (fun st e => sim_step template workout_ids uid e st) ⟨0, ∅, []⟩

/-- A concrete 16-entry template (user and workout ids are nil in templates,
as loaded from the workouts CSV). -/
def template16 : List Workout :=
  (List.range 16).map (fun i => ⟨0, 0, (i : Int), (i : Int) + 1⟩)

/-- Pre-generated distinct workout ids for `template16`. -/
def wids16 : List Nat := List.range 16

/-- Modelled from the spec: the sampling call
`ix.choose_multiple_weighted(&mut rng, batch_size, |&i| scores[i])` uses the
external `rand` crate (not part of this repository's sources), which draws a
weighted sample WITHOUT replacement.  The random draw is abstracted by
`pick_ix`, which chooses, from the remaining pool and the weight table, the
position of the next index; each drawn element is removed from the pool
before the next draw. -/
def choose_multiple_weighted (weights : Nat → Nat)
    (pick_ix : List Nat → (Nat → Nat) → Nat) : Nat → List Nat → List Nat
  | 0, _ => []
  | _ + 1, [] => []
  | amount + 1, a :: rest =>
    let pool := a :: rest
    let c := pool.getD (pick_ix pool weights % pool.length) 0
    c :: choose_multiple_weighted weights pick_ix amount (pool.erase c)

/-- The fixed response buffer capacity: `let mut buf = [0u8; 16384]`. -/
def buf_capacity : Nat := 16384

/-- How many bytes one `stream.read(&mut buf[n_bytes_read..])` call delivers:
no more than the scheduler offers (`chunk`), than the stream still holds, or
than the free space left in the fixed buffer.  `0` models a would-block
retry, an `Ok(0)` end-of-stream read, or a full buffer. -/
def read_eff (chunk : Nat) (buf stream : List Nat) : Nat :=
  min chunk (min stream.length (buf_capacity - buf.length))

/-- One iteration of the `api_request` read loop (lines 539-566),
parameterized by the incremental HTTP parser `parse` (returning status and
body offset when the buffered bytes form a structurally complete response).
`Sum.inl` is another trip around the loop; `Sum.inr` is a return — the body
bytes, or `none` on a bad status. -/
def read_loop_step (parse : List Nat → Option (Nat × Nat)) (chunk : Nat)
    (buf stream : List Nat) : (List Nat × List Nat) ⊕ Option (List Nat) :=
  match parse (buf ++ stream.take (read_eff chunk buf stream)) with
  | some (status, offset) =>
    if status = 200 ∨ status = 204 then
      .inr (some ((buf ++ stream.take (read_eff chunk buf stream)).drop offset))
    else .inr none
  | none =>
    .inl (buf ++ stream.take (read_eff chunk buf stream),
      stream.drop (read_eff chunk buf stream))

/-- The read loop under a schedule of read sizes: `Sum.inl` when the loop is
still running after the schedule is exhausted, `Sum.inr` when it returned. -/
def read_loop_iter (parse : List Nat → Option (Nat × Nat)) :
    List Nat → List Nat × List Nat → (List Nat × List Nat) ⊕ Option (List Nat)
  | [], st => .inl st
  | chunk :: chunks, st =>
    match read_loop_step parse chunk st.1 st.2 with
    | .inl st2 => read_loop_iter parse chunks st2
    | .inr r => .inr r

/- # Theorems -/

/- ## Payload window characterization -/

theorem write_payload_length (uid : Nat) (template : List Workout)
    (workout_ids : List Nat) (pos : Nat) :
    (write_payload uid template workout_ids pos).length
      = min 15 (template.length - (pos - 10)) := by
  simp [write_payload, List.length_take, List.length_drop, List.enum_length]

theorem write_payload_getD (uid : Nat) (template : List Workout)
    (workout_ids : List Nat) (pos j : Nat)
    (hj : j < (write_payload uid template workout_ids pos).length) :
    (write_payload uid template workout_ids pos).getD j dummyWorkout
      = { template.getD (pos - 10 + j) dummyWorkout with
          user_id := uid, workout_id := workout_ids.getD (pos - 10 + j) 0 } := by
  have hlen := write_payload_length uid template workout_ids pos
  have hjt : pos - 10 + j < template.length := by rw [hlen] at hj; omega
  rw [List.getD_eq_getElem _ _ hj, List.getD_eq_getElem _ _ hjt]
  unfold write_payload at hj ⊢
  rw [List.getElem_map, List.getElem_take, List.getElem_drop, List.getElem_enum]
  rfl

/-- C3: a write job built at position `pos` has payload the template entries at
indices `[max(pos-10,0), max(pos-10,0)+15)` (fewer at the template's end),
each remapped to the real user id and the pre-generated workout id for its
index; `pos` advances by exactly the number of payload ids not in `inserted`
at build time, and the pending-insert counter grows by the same count. -/
theorem C3_write_job_construction (uid : Nat) (template : List Workout)
    (workout_ids : List Nat) (inserted : Finset Nat) (pos : Nat) :
    (build_write_job uid template workout_ids inserted pos).payload.length
        = min 15 (template.length - (pos - 10)) ∧
    (∀ j, j < (build_write_job uid template workout_ids inserted pos).payload.length →
      (build_write_job uid template workout_ids inserted pos).payload.getD j dummyWorkout
        = { template.getD (pos - 10 + j) dummyWorkout with
            user_id := uid, workout_id := workout_ids.getD (pos - 10 + j) 0 }) ∧
    (build_write_job uid template workout_ids inserted pos).newPos
        = pos + count_new inserted
            (build_write_job uid template workout_ids inserted pos).payload ∧
    (build_write_job uid template workout_ids inserted pos).pendingDelta
        = count_new inserted (build_write_job uid template workout_ids inserted pos).payload :=
  ⟨write_payload_length .., fun j hj => write_payload_getD uid template workout_ids pos j hj,
    rfl, rfl⟩

/-- Witness for C3 at a concrete input: a user with a 2-entry template at
position 0, one id already inserted. -/
theorem C3_witness :
    0 < (build_write_job 1 [⟨0,0,0,1⟩, ⟨0,0,2,3⟩] [100, 101] {100} 0).payload.length ∧
    (build_write_job 1 [⟨0,0,0,1⟩, ⟨0,0,2,3⟩] [100, 101] {100} 0).payload.getD 0 dummyWorkout
      = { ([⟨0,0,0,1⟩, ⟨0,0,2,3⟩] : List Workout).getD (0 - 10 + 0) dummyWorkout with
          user_id := 1, workout_id := ([100, 101] : List Nat).getD (0 - 10 + 0) 0 } :=
  ⟨by decide,
   (C3_write_job_construction 1 [⟨0,0,0,1⟩, ⟨0,0,2,3⟩] [100, 101] {100} 0).2.1 0 (by decide)⟩

/- ## Transport status handling (C4) -/

/-- C4 counterexample: `api_request`'s status check does not depend on the
endpoint — a complete response with status 204 on the list endpoint is
accepted (body returned, no failure), although 204 is not in the claim's
per-endpoint accepted set (200 only) for the list endpoint. -/
theorem C4_counterexample :
    (api_request_on_complete "/api/v1/workouts/list" "REQ" "RESP" 204 []).body = some []
      ∧ accepted_for_endpoint "/api/v1/workouts/list" 204 = false := by
  exact ⟨by decide, by decide⟩

/-- C4 amended: on a structurally complete response, `api_request` reports
failure if and only if the status is outside the single accepted set
`{200, 204}`, which is the same for both endpoints; on failure the full
request and response text are logged, otherwise the body bytes are returned
and nothing is logged. -/
theorem C4_amended_status_check (path http_req_str resp_text : String)
    (status : Nat) (body : List Nat) :
    ((api_request_on_complete path http_req_str resp_text status body).body = none
        ↔ ¬ (status = 200 ∨ status = 204)) ∧
    (¬ (status = 200 ∨ status = 204) →
        (api_request_on_complete path http_req_str resp_text status body).logged
          = some (http_req_str, resp_text)) ∧
    ((status = 200 ∨ status = 204) →
        (api_request_on_complete path http_req_str resp_text status body).body = some body
          ∧ (api_request_on_complete path http_req_str resp_text status body).logged
              = none) := by
  by_cases h : status = 200 ∨ status = 204 <;>
    simp [api_request_on_complete, h]

/-- Witness for the amended C4: a 500 on the new-workouts endpoint logs the
request and response text. -/
theorem C4_amended_witness :
    (api_request_on_complete "/api/v1/workouts/new" "R" "T" 500 []).logged
      = some ("R", "T") :=
  (C4_amended_status_check "/api/v1/workouts/new" "R" "T" 500 []).2.1 (by decide)

/- ## Symmetric difference facts -/

theorem symmetric_difference_count_eq_zero (s t : Finset Nat) :
    symmetric_difference_count s t = 0 ↔ s = t := by
  rw [symmetric_difference_count, Finset.card_eq_zero, Finset.union_eq_empty]
  constructor
  · rintro ⟨h1, h2⟩
    exact Finset.Subset.antisymm (Finset.sdiff_eq_empty_iff_subset.mp h1)
      (Finset.sdiff_eq_empty_iff_subset.mp h2)
  · rintro rfl; simp

theorem symmetric_difference_count_pos (s t : Finset Nat) :
    0 < symmetric_difference_count s t ↔ s ≠ t := by
  rw [Nat.pos_iff_ne_zero, ne_eq, ne_eq, symmetric_difference_count_eq_zero]

/- ## Read validation (C1) -/

/-- C1: a non-read-only Read job locks the user's `inserted` set, sends the
list request, and asserts the returned id set equals the locked local set;
a mismatch is fatal with a dump of both sets and the user id, and the lock is
released only after the comparison (on the fatal path, never). -/
theorem C1_read_validation (uid : Nat) (inserted : Finset Nat)
    (resp_items : List Workout) :
    ((handle_read_checked uid inserted resp_items).2
        = .fatal uid (resp_wids resp_items) inserted
      ↔ inserted ≠ resp_wids resp_items) ∧
    ((handle_read_checked uid inserted resp_items).2 = .ok
      ↔ inserted = resp_wids resp_items) ∧
    ((handle_read_checked uid inserted resp_items).1
        = [.acquireLock, .sendList uid, .compareDone, .releaseLock]
      ∨ (handle_read_checked uid inserted resp_items).1
        = [.acquireLock, .sendList uid, .compareDone]) ∧
    (WorkerEvent.releaseLock ∈ (handle_read_checked uid inserted resp_items).1
      ↔ inserted = resp_wids resp_items) := by
  have hz := symmetric_difference_count_eq_zero inserted (resp_wids resp_items)
  by_cases h : inserted = resp_wids resp_items
  · subst h
    simp [handle_read_checked, hz.mpr rfl]
  · have hnz : ¬ symmetric_difference_count inserted (resp_wids resp_items) = 0 :=
      fun hc => h (hz.mp hc)
    simp [handle_read_checked, hnz, h]

/-- Witness for C1: matching local and server id sets yield outcome `ok`. -/
theorem C1_witness :
    (handle_read_checked 3 {1} [⟨3, 1, 0, 1⟩]).2 = ReadOutcome.ok :=
  (C1_read_validation 3 {1} [⟨3, 1, 0, 1⟩]).2.1.mpr (by decide)

/- ## Final verification (C2) -/

/-- C2: in non-read-only mode the final pass issues exactly one list request
per user state with `pos > 0` (and only those), records exactly the users
whose returned id set differs from their locked `inserted` set, and
terminates abnormally iff the failure list is non-empty. -/
theorem C2_final_verification (states : List UserState)
    (server : Nat → List Workout) :
    (∀ u, u ∈ (final_verification_pass states server).requests
        ↔ ∃ s ∈ states, s.user_id = u ∧ 0 < s.pos) ∧
    ((final_verification_pass states server).requests.length
        = (states.filter (fun s => decide (0 < s.pos))).length) ∧
    (∀ u, u ∈ (final_verification_pass states server).failed_verifications
        ↔ ∃ s ∈ states, s.user_id = u ∧ 0 < s.pos
            ∧ s.inserted ≠ resp_wids (server s.user_id)) ∧
    ((final_verification_pass states server).abnormal = true
        ↔ (final_verification_pass states server).failed_verifications ≠ []) ∧
    stress_test_final false states server = some (final_verification_pass states server) := by
  refine ⟨fun u => ?_, ?_, fun u => ?_, ?_, rfl⟩
  · simp only [final_verification_pass, List.mem_map, List.mem_filter,
      decide_eq_true_eq]
    constructor
    · rintro ⟨s, ⟨hs, hp⟩, rfl⟩; exact ⟨s, hs, rfl, hp⟩
    · rintro ⟨s, hs, rfl, hp⟩; exact ⟨s, ⟨hs, hp⟩, rfl⟩
  · simp [final_verification_pass]
  · simp only [final_verification_pass, List.mem_filterMap, List.mem_filter,
      decide_eq_true_eq, verify_user]
    constructor
    · rintro ⟨s, ⟨hs, hp⟩, hv⟩
      by_cases hd : 0 < symmetric_difference_count s.inserted (resp_wids (server s.user_id))
      · rw [if_pos hd] at hv
        obtain rfl := Option.some.inj hv
        exact ⟨s, hs, rfl, hp, (symmetric_difference_count_pos ..).mp hd⟩
      · rw [if_neg hd] at hv; cases hv
    · rintro ⟨s, hs, rfl, hp, hne⟩
      refine ⟨s, ⟨hs, hp⟩, ?_⟩
      rw [if_pos ((symmetric_difference_count_pos ..).mpr hne)]
  · simp [final_verification_pass]

/-- Witness for C2: one user with `pos = 1` whose server set is empty while
the local set is not — the pass ends abnormally. -/
theorem C2_witness :
    (final_verification_pass [⟨7, 0, [], [], {5}, 1⟩] (fun _ => [])).abnormal = true :=
  (C2_final_verification [⟨7, 0, [], [], {5}, 1⟩] (fun _ => [])).2.2.2.1.mpr (by decide)

/- ## Write arm (C8) -/

theorem insert_all_eq_union (ids : List Nat) (s : Finset Nat) :
    insert_all ids s = s ∪ ids.toFinset := by
  induction ids generalizing s with
  | nil => simp [insert_all]
  | cons a t ih =>
    simp only [insert_all, List.foldl_cons] at ih ⊢
    rw [ih (insert a s)]
    ext x
    simp only [Finset.mem_union, Finset.mem_insert, List.toFinset_cons,
      List.mem_toFinset]
    tauto

/-- C8: a successful Write adds all submitted ids to the locked set, and the
confirmed-insert counter grows by exactly the number of newly added ids;
resubmitting only already-present ids changes nothing and contributes zero. -/
theorem C8_write_counter (uid : Nat) (payload : List Workout)
    (inserted : Finset Nat) :
    (handle_write uid payload inserted).inserted
        = inserted ∪ (payload.map (fun w => w.workout_id)).toFinset ∧
    (handle_write uid payload inserted).counter_delta
        = ((payload.map (fun w => w.workout_id)).toFinset \ inserted).card ∧
    (handle_write uid payload inserted).events
        = [.acquireLock, .sendNew uid, .releaseLock] ∧
    ((∀ w ∈ payload, w.workout_id ∈ inserted) →
      (handle_write uid payload inserted).inserted.card = inserted.card ∧
      (handle_write uid payload inserted).counter_delta = 0) := by
  have hset : (handle_write uid payload inserted).inserted
      = inserted ∪ (payload.map (fun w => w.workout_id)).toFinset :=
    insert_all_eq_union ..
  have hcardsum := Finset.card_sdiff_add_card
    ((payload.map (fun w => w.workout_id)).toFinset) inserted
  have hdelta : (handle_write uid payload inserted).counter_delta
      = ((payload.map (fun w => w.workout_id)).toFinset \ inserted).card := by
    show (insert_all (payload.map (fun w => w.workout_id)) inserted).card
        - inserted.card = _
    rw [insert_all_eq_union, Finset.union_comm]
    omega
  refine ⟨hset, hdelta, rfl, fun hall => ?_⟩
  have hsub : (payload.map (fun w => w.workout_id)).toFinset ⊆ inserted := by
    intro x hx
    simp only [List.mem_toFinset, List.mem_map] at hx
    obtain ⟨w, hw, rfl⟩ := hx
    exact hall w hw
  constructor
  · rw [hset, Finset.union_eq_left.mpr hsub]
  · rw [hdelta, Finset.card_eq_zero, Finset.sdiff_eq_empty_iff_subset]
    exact hsub

/-- Witness for C8: resubmitting an id already in the set leaves the set size
unchanged and adds zero to the counter. -/
theorem C8_witness :
    (handle_write 2 [⟨2, 5, 0, 1⟩] {5}).inserted.card = ({5} : Finset Nat).card ∧
    (handle_write 2 [⟨2, 5, 0, 1⟩] {5}).counter_delta = 0 :=
  (C8_write_counter 2 [⟨2, 5, 0, 1⟩] {5}).2.2.2 (by decide)

/- ## Read-only mode (C7) -/

/-- C7: in read-only mode the manager never produces a Write job, the final
verification pass never runs, and a Read job sends the list request and
discards the result — no lock event, no comparison, always `ok`. -/
theorem C7_read_only_mode (draw_gt_80 : Bool) (s : UserState)
    (states : List UserState) (server : Nat → List Workout)
    (uid : Nat) (resp_items : List Workout) :
    is_write true s.pos s.workouts.length draw_gt_80 = false ∧
    mgr_job true draw_gt_80 s = .read s.user_id ∧
    stress_test_final true states server = none ∧
    handle_read_read_only uid resp_items = ([.sendList uid], .ok) ∧
    WorkerEvent.acquireLock ∉ (handle_read_read_only uid resp_items).1 ∧
    WorkerEvent.compareDone ∉ (handle_read_read_only uid resp_items).1 := by
  refine ⟨rfl, ?_, rfl, rfl, ?_, ?_⟩
  · simp [mgr_job, is_write]
  · simp [handle_read_read_only]
  · simp [handle_read_read_only]

/-- Witness for C7 at a concrete state: the final pass is skipped. -/
theorem C7_witness :
    stress_test_final true [] (fun _ => []) = none :=
  (C7_read_only_mode true ⟨1, 0, [], [], ∅, 0⟩ [] (fun _ => []) 4 []).2.2.1

/- ## Worker receive loop exhaustiveness (C9) -/

theorem worker_arms_cons (read_only : Bool) (m : RecvResult) (l : List RecvResult) :
    worker_arms read_only (m :: l)
      = if dispatch_arm read_only m = .exitArm then [.exitArm]
        else dispatch_arm read_only m :: worker_arms read_only l := by
  cases h : dispatch_arm read_only m <;> simp [worker_arms, h]

theorem dispatch_arm_read (read_only : Bool) (uid : Nat) :
    dispatch_arm read_only (.ok (.read uid)) = .readReadOnlyArm ∨
    dispatch_arm read_only (.ok (.read uid)) = .readCheckedArm := by
  cases read_only <;> simp [dispatch_arm]

/-- Once an Exit is among the messages sent by the manager, the worker loop
stops there and never reaches the receive errors that follow. -/
theorem worker_arms_append_of_exit (read_only : Bool) (sent errs : List RecvResult)
    (hexit : RecvResult.ok .exit ∈ sent) :
    worker_arms read_only (sent ++ errs) = worker_arms read_only sent := by
  induction sent with
  | nil => exact absurd hexit (List.not_mem_nil _)
  | cons m rest ih =>
    rw [List.cons_append, worker_arms_cons, worker_arms_cons]
    by_cases hd : dispatch_arm read_only m = .exitArm
    · rw [if_pos hd, if_pos hd]
    · rw [if_neg hd, if_neg hd]
      have hm : m ≠ RecvResult.ok .exit := fun he => hd (by rw [he]; rfl)
      have hexit' : RecvResult.ok .exit ∈ rest := by
        rcases List.mem_cons.mp hexit with h | h
        · exact absurd h.symm hm
        · exact h
      rw [ih hexit']

/-- On a stream with no receive errors, the `todo!()` arm is never taken. -/
theorem todo_not_mem_worker_arms (read_only : Bool) (ms : List RecvResult)
    (hok : ∀ m ∈ ms, m ≠ .recvErr) :
    ArmTaken.todoArm ∉ worker_arms read_only ms := by
  induction ms with
  | nil => simp [worker_arms]
  | cons m rest ih =>
    rw [worker_arms_cons]
    by_cases hd : dispatch_arm read_only m = .exitArm
    · rw [if_pos hd]; simp
    · rw [if_neg hd]
      intro hmem
      rcases List.mem_cons.mp hmem with h | h
      · cases m with
        | recvErr => exact hok _ (List.mem_cons_self _ _) rfl
        | ok j =>
          cases j with
          | exit => exact hd rfl
          | write uid w => simp [dispatch_arm] at h
          | read uid =>
            rcases dispatch_arm_read read_only uid with he | he <;>
              rw [he] at h <;> exact absurd h (by decide)
      · exact ih (fun x hx => hok x (List.mem_cons_of_mem _ hx)) h

/-- If the Write arm fired, some Write job was on the stream. -/
theorem write_arm_source (read_only : Bool) (ms : List RecvResult)
    (h : ArmTaken.writeArm ∈ worker_arms read_only ms) :
    ∃ uid w, RecvResult.ok (StressTestJob.write uid w) ∈ ms := by
  induction ms with
  | nil => rw [worker_arms] at h; exact absurd h (List.not_mem_nil _)
  | cons m rest ih =>
    rw [worker_arms_cons] at h
    by_cases hd : dispatch_arm read_only m = .exitArm
    · rw [if_pos hd] at h
      rcases List.mem_cons.mp h with h1 | h1
      · exact absurd h1 (by decide)
      · exact absurd h1 (List.not_mem_nil _)
    · rw [if_neg hd] at h
      rcases List.mem_cons.mp h with h1 | h1
      · cases m with
        | recvErr => exact absurd h1 (by simp [dispatch_arm])
        | ok j =>
          cases j with
          | exit => exact absurd rfl hd
          | read uid =>
            rcases dispatch_arm_read read_only uid with he | he <;>
              rw [he] at h1 <;> exact absurd h1 (by decide)
          | write uid w => exact ⟨uid, w, List.mem_cons_self _ _⟩
      · obtain ⟨uid, w, hw⟩ := ih h1
        exact ⟨uid, w, List.mem_cons_of_mem _ hw⟩

/-- A Write produced by the manager forces `read_only = false`: the `is_write`
guard contains `! read_only`. -/
theorem mgr_job_write_not_read_only (read_only draw_gt_80 : Bool) (s : UserState)
    (uid : Nat) (w : List Workout)
    (h : mgr_job read_only draw_gt_80 s = .write uid w) : read_only = false := by
  unfold mgr_job at h
  split at h
  case isTrue ht =>
    cases read_only
    · rfl
    · simp [is_write] at ht
  case isFalse hf => exact absurd h (by simp)

/-- C9: every value the worker actually receives is handled.  The received
stream is the manager's sent jobs — each an Exit or a job built by
`mgr_job` — followed by any receive errors (the senders stay alive until
after the join, so an error can only follow the sends), with Exit among the
sent jobs.  The loop stops at the Exit arm, the `todo!()` catch-all arm is
never taken, and the Write arm (whose `assert!(!read_only)` would die
otherwise) only fires when the run is not read-only. -/
theorem C9_todo_unreachable (read_only : Bool) (sent errs : List RecvResult)
    (hgen : ∀ m ∈ sent, m = .ok .exit ∨ ∃ d s, m = .ok (mgr_job read_only d s))
    (hexit : RecvResult.ok .exit ∈ sent) :
    ArmTaken.todoArm ∉ worker_arms read_only (sent ++ errs) ∧
    (ArmTaken.writeArm ∈ worker_arms read_only (sent ++ errs) → read_only = false) := by
  rw [worker_arms_append_of_exit read_only sent errs hexit]
  constructor
  · apply todo_not_mem_worker_arms
    intro m hm
    rcases hgen m hm with rfl | ⟨d, s, rfl⟩ <;> simp
  · intro hmem
    obtain ⟨uid, w, hw⟩ := write_arm_source read_only sent hmem
    rcases hgen _ hw with h | ⟨d, s, h⟩
    · exact StressTestJob.noConfusion (RecvResult.ok.inj h)
    · exact mgr_job_write_not_read_only read_only d s uid w (RecvResult.ok.inj h).symm

/-- Witness for C9: a read job, then Exit, then a receive error after the
sends — the todo arm is not reached. -/
theorem C9_witness :
    ArmTaken.todoArm ∉ worker_arms false
        ([RecvResult.ok (mgr_job false false ⟨1, 0, [], [], ∅, 0⟩), RecvResult.ok .exit]
          ++ [RecvResult.recvErr]) ∧
    (ArmTaken.writeArm ∈ worker_arms false
        ([RecvResult.ok (mgr_job false false ⟨1, 0, [], [], ∅, 0⟩), RecvResult.ok .exit]
          ++ [RecvResult.recvErr]) → false = false) :=
  C9_todo_unreachable false
    [RecvResult.ok (mgr_job false false ⟨1, 0, [], [], ∅, 0⟩), RecvResult.ok .exit]
    [RecvResult.recvErr]
    (by
      intro m hm
      rcases List.mem_cons.mp hm with rfl | hm
      · exact Or.inr ⟨false, ⟨1, 0, [], [], ∅, 0⟩, rfl⟩
      · rcases List.mem_cons.mp hm with rfl | hm
        · exact Or.inl rfl
        · exact absurd hm (List.not_mem_nil _))
    (List.mem_cons_of_mem _ (List.mem_cons_self _ _))

/- ## Position bounds per write batch (C5) -/

/-- C5 counterexample: with `batch_size = 1`, `n_threads = 1`, and writes
enabled, the very first write batch advances `pos` by 15 (not at most 5):
the window is the first 15 template entries and none is inserted yet.  A
second write batch built before the worker has executed the first queued job
pushes `pos` to 26, beyond the template length 16. -/
theorem C5_counterexample :
    (sim_run template16 wids16 7 [.writeBatch]).pos = 15 ∧
    ¬ (sim_run template16 wids16 7 [.writeBatch]).pos ≤ 0 + 5 ∧
    (sim_run template16 wids16 7 [.writeBatch, .writeBatch]).pos = 26 ∧
    template16.length < (sim_run template16 wids16 7 [.writeBatch, .writeBatch]).pos := by
  refine ⟨by decide, by decide, by decide, by decide⟩

theorem sim_step_pos_le (template : List Workout) (workout_ids : List Nat)
    (uid : Nat) (e : SimEvent) (st : SimState) :
    (sim_step template workout_ids uid e st).pos ≤ st.pos + 15 ∧
    (st.pos ≤ template.length + 10 →
      (sim_step template workout_ids uid e st).pos ≤ template.length + 10) := by
  cases e with
  | readBatch => exact ⟨by simp [sim_step], fun h => by simpa [sim_step] using h⟩
  | execJob =>
    cases hp : st.pending with
    | nil => exact ⟨by simp [sim_step, hp], fun h => by simpa [sim_step, hp] using h⟩
    | cons p rest =>
      exact ⟨by simp [sim_step, hp], fun h => by simpa [sim_step, hp] using h⟩
  | writeBatch =>
    by_cases hlt : st.pos < template.length
    · have hlen := write_payload_length uid template workout_ids st.pos
      have hcnt : count_new st.inserted (write_payload uid template workout_ids st.pos)
          ≤ (write_payload uid template workout_ids st.pos).length :=
        List.length_filter_le _ _
      have hpos : (sim_step template workout_ids uid .writeBatch st).pos
          = st.pos + count_new st.inserted (write_payload uid template workout_ids st.pos) := by
        simp [sim_step, hlt, build_write_job]
      rw [hpos]
      omega
    · exact ⟨by simp [sim_step, hlt], fun h => by simpa [sim_step, hlt] using h⟩

theorem sim_run_pos_le (template : List Workout) (workout_ids : List Nat)
    (uid : Nat) (events : List SimEvent) :
    (sim_run template workout_ids uid events).pos ≤ template.length + 10 := by
  suffices h : ∀ st : SimState, st.pos ≤ template.length + 10 →
      (events.foldl (fun st e => sim_step template workout_ids uid e st) st).pos
        ≤ template.length + 10 from h ⟨0, ∅, []⟩ (Nat.zero_le _)
  induction events with
  | nil => intro st h; exact h
  | cons e rest ih =>
    intro st h
    exact ih _ ((sim_step_pos_le template workout_ids uid e st).2 h)

/-- C5 amended: per batch, `pos` advances by at most 15 (the full window
size; only 5 once the ten-entry overlap is actually present in `inserted`),
and over any `batch_size = 1, n_threads = 1` run `pos` never exceeds the
template length plus 10. -/
theorem C5_amended_pos_bounds (template : List Workout) (workout_ids : List Nat)
    (uid : Nat) :
    (∀ e st, (sim_step template workout_ids uid e st).pos ≤ st.pos + 15) ∧
    (∀ events, (sim_run template workout_ids uid events).pos ≤ template.length + 10) :=
  ⟨fun e st => (sim_step_pos_le template workout_ids uid e st).1,
   fun events => sim_run_pos_le template workout_ids uid events⟩

/-- Witness for the amended C5 at a concrete step. -/
theorem C5_amended_witness :
    (sim_step template16 wids16 7 .writeBatch ⟨0, ∅, []⟩).pos ≤ (⟨0, ∅, []⟩ : SimState).pos + 15 :=
  (C5_amended_pos_bounds template16 wids16 7).1 .writeBatch ⟨0, ∅, []⟩

/- ## Weighted sampling without replacement (C6) -/

theorem choose_multiple_weighted_nodup (weights : Nat → Nat)
    (pick_ix : List Nat → (Nat → Nat) → Nat) (amount : Nat) (pool : List Nat)
    (hnd : pool.Nodup) :
    (choose_multiple_weighted weights pick_ix amount pool).Nodup ∧
    ∀ u ∈ choose_multiple_weighted weights pick_ix amount pool, u ∈ pool := by
  induction amount generalizing pool with
  | zero => simp [choose_multiple_weighted]
  | succ k ih =>
    cases pool with
    | nil => simp [choose_multiple_weighted]
    | cons a rest =>
      have hlt : pick_ix (a :: rest) weights % (a :: rest).length < (a :: rest).length :=
        Nat.mod_lt _ (by simp)
      have hcmem :
          (a :: rest).getD (pick_ix (a :: rest) weights % (a :: rest).length) 0 ∈ a :: rest := by
        rw [List.getD_eq_getElem _ _ hlt]
        exact List.getElem_mem ..
      have hnder : ((a :: rest).erase
          ((a :: rest).getD (pick_ix (a :: rest) weights % (a :: rest).length) 0)).Nodup :=
        hnd.erase _
      obtain ⟨ihnd, ihsub⟩ := ih _ hnder
      rw [choose_multiple_weighted]
      constructor
      · refine List.nodup_cons.mpr ⟨fun hmem => ?_, ihnd⟩
        have := (List.Nodup.mem_erase_iff hnd).mp (ihsub _ hmem)
        exact this.1 rfl
      · intro u hu
        rcases List.mem_cons.mp hu with rfl | hu
        · exact hcmem
        · exact (List.erase_sublist _ _).subset (ihsub u hu)

/-- C6: each sampling batch draws `batch_size` indices from the index universe
`(0..n)` without replacement: no user index appears twice within one batch,
and every drawn index is a valid user index. -/
theorem C6_batch_no_duplicates (weights : Nat → Nat)
    (pick_ix : List Nat → (Nat → Nat) → Nat) (batch_size n : Nat) :
    (choose_multiple_weighted weights pick_ix batch_size (List.range n)).Nodup ∧
    ∀ u ∈ choose_multiple_weighted weights pick_ix batch_size (List.range n), u < n := by
  obtain ⟨h1, h2⟩ := choose_multiple_weighted_nodup weights pick_ix batch_size
    (List.range n) (List.nodup_range n)
  exact ⟨h1, fun u hu => List.mem_range.mp (h2 u hu)⟩

/-- Witness for C6 at a concrete draw. -/
theorem C6_witness :
    (choose_multiple_weighted (fun _ => 1) (fun _ _ => 0) 2 (List.range 3)).Nodup :=
  (C6_batch_no_duplicates (fun _ => 1) (fun _ _ => 0) 2 3).1

/- ## Transport read loop never returns when stuck (C10) -/

/-- C10: the read loop accumulates into the fixed 16384-byte buffer and can
only return once the buffered bytes parse as a structurally complete
response.  If no buffer content of at most 16384 bytes can ever be complete
(the response's head plus buffered body exceeds the buffer), or the stream is
exhausted (reads keep returning 0 bytes) while the current buffer is
incomplete, then no schedule of reads ever makes the call return. -/
theorem C10_read_loop_never_returns (parse : List Nat → Option (Nat × Nat))
    (buf stream : List Nat) (hbuf : buf.length ≤ buf_capacity)
    (hstuck : (∀ b : List Nat, b.length ≤ buf_capacity → parse b = none)
      ∨ (stream = [] ∧ parse buf = none)) :
    ∀ chunks, (read_loop_iter parse chunks (buf, stream)).isLeft = true := by
  intro chunks
  induction chunks generalizing buf stream with
  | nil => rfl
  | cons chunk rest ih =>
    rcases hstuck with hover | ⟨hnil, hparse⟩
    · have heff : read_eff chunk buf stream ≤ buf_capacity - buf.length :=
        le_trans (Nat.min_le_right ..) (Nat.min_le_right ..)
      have hlen2 : (buf ++ stream.take (read_eff chunk buf stream)).length
          ≤ buf_capacity := by
        simp only [List.length_append, List.length_take]
        omega
      have hp : parse (buf ++ stream.take (read_eff chunk buf stream)) = none :=
        hover _ hlen2
      show (read_loop_iter parse (chunk :: rest) (buf, stream)).isLeft = true
      rw [read_loop_iter, read_loop_step, hp]
      exact ih _ _ hlen2 (Or.inl hover)
    · subst hnil
      have heff : read_eff chunk buf [] = 0 := by
        simp [read_eff]
      show (read_loop_iter parse (chunk :: rest) (buf, [])).isLeft = true
      rw [read_loop_iter, read_loop_step, heff]
      simp only [List.take_nil, List.append_nil, List.drop_nil]
      rw [hparse]
      exact ih _ _ hbuf (Or.inr ⟨rfl, hparse⟩)

/-- Witness for C10: a parser that never completes, an empty stream, and a
three-read schedule — the loop is still running. -/
theorem C10_witness :
    (read_loop_iter (fun _ => none) [5, 0, 3] ([], [])).isLeft = true :=
  C10_read_loop_never_returns (fun _ => none) [] [] (Nat.zero_le _)
    (Or.inl (fun _ _ => rfl)) [5, 0, 3]

end Fitbod
